import Mathlib

/-!
Verification development for the delta-neutral funding-rate arbitrage core of
the ProjetBotAirdrop repository.

The Python sources are shallowly embedded:
* Python `str` values are modelled as lists of Unicode code points
  (`Str := List Nat`), matching Python's view of a string as a sequence of
  code points; `String.cp` transcribes a Lean string literal into that form.
* Python `float` arithmetic is modelled with exact rationals (`Rat`),
  Python `int` with `Int`.
* Stateful code is modelled by explicit state passing; outbound platform
  calls are recorded in an explicit event trace, and platform responses are
  supplied by an environment record so that every execution path of the
  source is a function of that environment.

Embedded modules: `src/core/scanner.py`, `src/core/models.py`,
`src/trading/executor.py`, `src/trading/position_manager.py`.
-/

/-- Python strings as sequences of Unicode code points. -/
abbrev Str := List Nat

/-- Code points of a Lean string literal, used to transcribe the string
constants appearing in the Python source. -/
def String.cp (s : String) : Str := s.toList.map Char.toNat

/-- ASCII uppercasing of one code point, the action of Python `str.upper`
on the ASCII alphabet used by pair and platform names. -/
def upChar (c : Nat) : Nat := if 97 ≤ c ∧ c ≤ 122 then c - 32 else c

/-- Python `str.upper` (ASCII fragment). -/
def pyUpper (s : Str) : Str := s.map upChar

/-- ASCII lowercasing of one code point, the action of Python `str.lower`. -/
def loChar (c : Nat) : Nat := if 65 ≤ c ∧ c ≤ 90 then c + 32 else c

/-- Python `str.lower` (ASCII fragment). -/
def pyLower (s : Str) : Str := s.map loChar

/-- Worker for `pyReplaceDel`: deletes non-overlapping occurrences of the
nonempty pattern `p :: ps` from the string, scanning left to right exactly as
Python `str.replace(pat, "")` does.  `fuel` bounds the recursion; it is
initialised with the string length, which suffices because every step consumes
at least one character. -/
def repFuel (p : Nat) (ps : List Nat) : Nat → Str → Str
  | _, [] => []
  | 0, s => s
  | fuel + 1, c :: rest =>
    if (p :: ps).isPrefixOf (c :: rest) then repFuel p ps fuel (rest.drop ps.length)
    else c :: repFuel p ps fuel rest

/-- Python `s.replace(pat, "")`: delete every non-overlapping occurrence of
`pat` from `s`, scanning left to right. -/
def pyReplaceDel (pat : Str) (s : Str) : Str :=
  match pat with
  | [] => s
  | p :: ps => repFuel p ps s.length s

/-- Python `str.strip` whitespace test (ASCII fragment: space, tab, newline,
vertical tab, form feed, carriage return). -/
def pySpace (c : Nat) : Bool :=
  c = 32 || c = 9 || c = 10 || c = 11 || c = 12 || c = 13

/-- Python `str.strip`: drop leading and trailing whitespace. -/
def pyStrip (s : Str) : Str :=
  ((s.dropWhile pySpace).reverse.dropWhile pySpace).reverse

/-- `standardize_pair_name` from `src/core/scanner.py` (lines 21-40):
uppercase, then delete the venue-specific suffix patterns in the source's
order, then strip whitespace. -/
def standardize_pair_name (s : Str) : Str :=
  let s1 := pyUpper s
  let s2 := pyReplaceDel ("-USD-PERP".cp) s1
  let s3 := pyReplaceDel ("-PERP".cp) s2
  let s4 := pyReplaceDel ("_USDC_PER_9".cp) s3
  let s5 := pyReplaceDel ("_USDC".cp) s4
  let s6 := pyReplaceDel ("USDC".cp) s5
  let s7 := pyReplaceDel ("USD".cp) s6
  let s8 := pyReplaceDel ("-".cp) s7
  let s9 := pyReplaceDel ("_".cp) s8
  pyStrip s9

-- Sanity checks from the spec's testable properties.
example : standardize_pair_name ("BTC-USD-PERP".cp) = "BTC".cp := by decide
example : standardize_pair_name ("BTC_USDC_PER_9".cp) = "BTC".cp := by decide

/- ### Lemmas about the string primitives -/

open scoped List

-- Allow `decide` to evaluate rational arithmetic in concrete witnesses.
unseal Rat.mul Rat.add Rat.sub Rat.inv

theorem upChar_idem (c : Nat) : upChar (upChar c) = upChar c := by
  unfold upChar
  split_ifs <;> omega

theorem repFuel_sublist (p : Nat) (ps : List Nat) :
    ∀ fuel s, repFuel p ps fuel s <+ s := by
  intro fuel
  induction fuel with
  | zero =>
    intro s
    cases s with
    | nil => simp [repFuel]
    | cons c rest => simp [repFuel]
  | succ n ih =>
    intro s
    cases s with
    | nil => simp [repFuel]
    | cons c rest =>
      rw [repFuel]
      split
      · exact ((ih _).trans (List.drop_sublist _ _)).trans (List.sublist_cons_self _ _)
      · exact List.Sublist.cons₂ c (ih rest)

theorem pyReplaceDel_sublist (pat : Str) (s : Str) : pyReplaceDel pat s <+ s := by
  cases pat with
  | nil => simp [pyReplaceDel]
  | cons p ps => exact repFuel_sublist p ps s.length s

theorem pyStrip_sublist (s : Str) : pyStrip s <+ s := by
  have h1 : s.dropWhile pySpace <+ s := (List.dropWhile_suffix pySpace).sublist
  have h3 : (s.dropWhile pySpace).reverse.dropWhile pySpace <+
      (s.dropWhile pySpace).reverse := (List.dropWhile_suffix pySpace).sublist
  have h4 : pyStrip s <+ (s.dropWhile pySpace).reverse.reverse := h3.reverse
  rw [List.reverse_reverse] at h4
  exact h4.trans h1

/-- With enough fuel, `repFuel` on a string with no occurrence of the pattern
is the identity. -/
theorem repFuel_of_not_infix (p : Nat) (ps : List Nat) :
    ∀ fuel s, s.length ≤ fuel → ¬ (p :: ps) <:+: s → repFuel p ps fuel s = s := by
  intro fuel
  induction fuel with
  | zero =>
    intro s hlen _
    cases s with
    | nil => simp [repFuel]
    | cons c rest => simp at hlen
  | succ n ih =>
    intro s hlen hinf
    cases s with
    | nil => simp [repFuel]
    | cons c rest =>
      rw [repFuel]
      split
      · next hpre =>
          exact absurd (List.isPrefixOf_iff_prefix.mp hpre)
            (fun h => hinf (List.infix_cons_iff.mpr (Or.inl h)))
      · next =>
          have hrest : ¬ (p :: ps) <:+: rest :=
            fun h => hinf (List.infix_cons_iff.mpr (Or.inr h))
          have hlen' : rest.length ≤ n := by simp at hlen; omega
          rw [ih rest hlen' hrest]

/-- Deleting every occurrence of a single character removes that character
entirely. -/
theorem repFuel_single_not_mem (a : Nat) :
    ∀ fuel s, s.length ≤ fuel → a ∉ repFuel a [] fuel s := by
  intro fuel
  induction fuel with
  | zero =>
    intro s hlen
    cases s with
    | nil => simp [repFuel]
    | cons c rest => simp at hlen
  | succ n ih =>
    intro s hlen
    cases s with
    | nil => simp [repFuel]
    | cons c rest =>
      have hlen' : rest.length ≤ n := by simp at hlen; omega
      rw [repFuel]
      split
      · next hpre =>
          obtain ⟨rfl, -⟩ := List.cons_prefix_cons.mp (List.isPrefixOf_iff_prefix.mp hpre)
          simpa using ih rest hlen'
      · next hpre =>
          simp only [List.mem_cons]
          rintro (rfl | hm)
          · exact hpre (by simp [List.isPrefixOf_iff_prefix])
          · exact ih rest hlen' hm

theorem pyReplaceDel_of_not_infix {pat : Str} (s : Str) (hne : pat ≠ [])
    (h : ¬ pat <:+: s) : pyReplaceDel pat s = s := by
  cases pat with
  | nil => exact absurd rfl hne
  | cons p ps => exact repFuel_of_not_infix p ps s.length s le_rfl h

theorem pyReplaceDel_single_not_mem (a : Nat) (s : Str) :
    a ∉ pyReplaceDel [a] s :=
  repFuel_single_not_mem a s.length s le_rfl

theorem mem_of_mem_pyReplaceDel {a : Nat} {pat s : Str}
    (h : a ∈ pyReplaceDel pat s) : a ∈ s :=
  (pyReplaceDel_sublist pat s).subset h

theorem mem_of_mem_pyStrip {a : Nat} {s : Str} (h : a ∈ pyStrip s) : a ∈ s :=
  (pyStrip_sublist s).subset h

theorem dropWhile_self_idem (p : α → Bool) (l : List α) :
    (l.dropWhile p).dropWhile p = l.dropWhile p := by
  induction l with
  | nil => simp
  | cons c t ih =>
    by_cases h : p c
    · simp [List.dropWhile_cons, h, ih]
    · simp [List.dropWhile_cons, h]

theorem head?_dropWhile_false {p : α → Bool} {l : List α} {c : α}
    (h : (l.dropWhile p).head? = some c) : p c = false := by
  induction l with
  | nil => simp at h
  | cons a t ih =>
    rw [List.dropWhile_cons] at h
    split at h
    · exact ih h
    · simp at h
      subst h
      simp_all

theorem dropWhile_of_head_false {p : α → Bool} {c : α} (t : List α)
    (h : p c = false) : (c :: t).dropWhile p = c :: t := by
  simp [List.dropWhile_cons, h]

theorem pyStrip_prefix_dropWhile (s : Str) :
    pyStrip s <+: s.dropWhile pySpace := by
  rw [← List.reverse_suffix]
  show ((s.dropWhile pySpace).reverse.dropWhile pySpace).reverse.reverse <:+ _
  rw [List.reverse_reverse]
  exact List.dropWhile_suffix pySpace

theorem dropWhile_pyStrip (s : Str) :
    (pyStrip s).dropWhile pySpace = pyStrip s := by
  cases hv : pyStrip s with
  | nil => simp
  | cons c t =>
    apply dropWhile_of_head_false
    obtain ⟨t2, ht2⟩ := pyStrip_prefix_dropWhile s
    rw [hv] at ht2
    have hhead : (s.dropWhile pySpace).head? = some c := by
      rw [← ht2]; rfl
    exact head?_dropWhile_false hhead

theorem pyStrip_idem (s : Str) : pyStrip (pyStrip s) = pyStrip s := by
  calc pyStrip (pyStrip s)
      = (((pyStrip s).dropWhile pySpace).reverse.dropWhile pySpace).reverse := rfl
    _ = ((pyStrip s).reverse.dropWhile pySpace).reverse := by rw [dropWhile_pyStrip]
    _ = pyStrip s := by
        show ((((s.dropWhile pySpace).reverse.dropWhile pySpace).reverse).reverse.dropWhile
          pySpace).reverse = _
        rw [List.reverse_reverse, dropWhile_self_idem]
        rfl

/- ### C4: idempotence of the pair normalizer -/

/-- `standardize_pair_name` written as an explicit chain, for rewriting. -/
theorem standardize_eq_chain (s : Str) :
    standardize_pair_name s =
      pyStrip (pyReplaceDel ("_".cp) (pyReplaceDel ("-".cp) (pyReplaceDel ("USD".cp)
        (pyReplaceDel ("USDC".cp) (pyReplaceDel ("_USDC".cp) (pyReplaceDel ("_USDC_PER_9".cp)
          (pyReplaceDel ("-PERP".cp) (pyReplaceDel ("-USD-PERP".cp) (pyUpper s))))))))) := rfl

theorem standardize_sublist_upper (s : Str) :
    standardize_pair_name s <+ pyUpper s := by
  rw [standardize_eq_chain]
  exact (pyStrip_sublist _).trans ((pyReplaceDel_sublist _ _).trans
    ((pyReplaceDel_sublist _ _).trans ((pyReplaceDel_sublist _ _).trans
    ((pyReplaceDel_sublist _ _).trans ((pyReplaceDel_sublist _ _).trans
    ((pyReplaceDel_sublist _ _).trans ((pyReplaceDel_sublist _ _).trans
    (pyReplaceDel_sublist _ _))))))))

theorem hyphen_not_mem_standardize (s : Str) : 45 ∉ standardize_pair_name s := by
  rw [standardize_eq_chain]
  intro hmem
  have h2 := mem_of_mem_pyReplaceDel (mem_of_mem_pyStrip hmem)
  rw [show ("-".cp : Str) = [45] by decide] at h2
  exact pyReplaceDel_single_not_mem 45 _ h2

theorem underscore_not_mem_standardize (s : Str) : 95 ∉ standardize_pair_name s := by
  rw [standardize_eq_chain]
  intro hmem
  have h1 := mem_of_mem_pyStrip hmem
  rw [show ("_".cp : Str) = [95] by decide] at h1
  exact pyReplaceDel_single_not_mem 95 _ h1

theorem pyUpper_standardize (s : Str) :
    pyUpper (standardize_pair_name s) = standardize_pair_name s := by
  have hfix : ∀ c ∈ standardize_pair_name s, upChar c = c := by
    intro c hc
    have := (standardize_sublist_upper s).subset hc
    obtain ⟨c0, _, rfl⟩ := List.mem_map.mp this
    exact upChar_idem c0
  calc pyUpper (standardize_pair_name s)
      = (standardize_pair_name s).map id := List.map_congr_left hfix
    _ = standardize_pair_name s := List.map_id _

theorem pyStrip_standardize (s : Str) :
    pyStrip (standardize_pair_name s) = standardize_pair_name s := by
  rw [standardize_eq_chain s, pyStrip_idem]

/-- C4, corrected: `standardize_pair_name` is idempotent on every input whose
normalized form contains no occurrence of the substring `"USD"`.  (Deleting
`"-"` or `"_"` can create a fresh `"USD"` occurrence that only a second pass
removes, so full idempotence fails; see the counterexample.) -/
theorem standardize_pair_name_idem_of_no_usd (x : Str)
    (h : ¬ ("USD".cp <:+: standardize_pair_name x)) :
    standardize_pair_name (standardize_pair_name x) = standardize_pair_name x := by
  set y := standardize_pair_name x with hy
  have h45 : 45 ∉ y := hyphen_not_mem_standardize x
  have h95 : 95 ∉ y := underscore_not_mem_standardize x
  have k1 : ¬ ("-USD-PERP".cp <:+: y) := fun hin => h45 (hin.mem (by decide))
  have k2 : ¬ ("-PERP".cp <:+: y) := fun hin => h45 (hin.mem (by decide))
  have k3 : ¬ ("_USDC_PER_9".cp <:+: y) := fun hin => h95 (hin.mem (by decide))
  have k4 : ¬ ("_USDC".cp <:+: y) := fun hin => h95 (hin.mem (by decide))
  have k5 : ¬ ("USDC".cp <:+: y) := fun hin =>
    h ((List.isPrefixOf_iff_prefix.mp (by decide) :
      ("USD".cp <+: "USDC".cp)).isInfix.trans hin)
  have k7 : ¬ ("-".cp <:+: y) := fun hin => h45 (hin.mem (by decide))
  have k8 : ¬ ("_".cp <:+: y) := fun hin => h95 (hin.mem (by decide))
  calc standardize_pair_name y
      = pyStrip (pyReplaceDel ("_".cp) (pyReplaceDel ("-".cp) (pyReplaceDel ("USD".cp)
          (pyReplaceDel ("USDC".cp) (pyReplaceDel ("_USDC".cp)
          (pyReplaceDel ("_USDC_PER_9".cp) (pyReplaceDel ("-PERP".cp)
          (pyReplaceDel ("-USD-PERP".cp) (pyUpper y))))))))) := standardize_eq_chain y
    _ = y := by
        rw [pyUpper_standardize x,
          pyReplaceDel_of_not_infix y (by decide) k1,
          pyReplaceDel_of_not_infix y (by decide) k2,
          pyReplaceDel_of_not_infix y (by decide) k3,
          pyReplaceDel_of_not_infix y (by decide) k4,
          pyReplaceDel_of_not_infix y (by decide) k5,
          pyReplaceDel_of_not_infix y (by decide) h,
          pyReplaceDel_of_not_infix y (by decide) k7,
          pyReplaceDel_of_not_infix y (by decide) k8,
          pyStrip_standardize x]

/-- C4, counterexample: the claim `normalize (normalize x) = normalize x` for
every `x` fails at `x = "U-SD"`: the first pass deletes the hyphen and leaves
`"USD"`, which the second pass deletes entirely. -/
theorem standardize_pair_name_not_idem :
    standardize_pair_name (standardize_pair_name ("U-SD".cp)) ≠
      standardize_pair_name ("U-SD".cp) := by decide

/-- Witness for `standardize_pair_name_idem_of_no_usd` at a concrete input. -/
theorem standardize_pair_name_idem_witness :
    ¬ ("USD".cp <:+: standardize_pair_name ("BTC-USD-PERP".cp)) ∧
      standardize_pair_name (standardize_pair_name ("BTC-USD-PERP".cp)) =
        standardize_pair_name ("BTC-USD-PERP".cp) :=
  ⟨by decide, standardize_pair_name_idem_of_no_usd _ (by decide)⟩

/- ### Scanner model: `src/core/models.py` and `src/core/scanner.py` -/

/-- The `Platform` enum from `src/core/models.py`. -/
inductive Platform
  | hyperliquid
  | paradex
  | lighter
  | extended
deriving DecidableEq

/-- Taker fees from `PLATFORM_FEES` in `src/core/models.py`. -/
def takerFee : Platform → Rat
  | .hyperliquid => 3 / 10000
  | .paradex => 5 / 10000
  | .lighter => 5 / 10000
  | .extended => 5 / 10000

/-- `PLATFORM_SLIPPAGE` from `src/core/models.py`. -/
def platformSlippage : Platform → Rat
  | .hyperliquid => 10 / 10000
  | .paradex => 15 / 10000
  | .lighter => 15 / 10000
  | .extended => 20 / 10000

/-- `Platform[name.upper().replace(" ", "")]`: enum lookup by member name in
`calculate_entry_cost`; `none` is the `KeyError` branch. -/
def platformOfName (name : Str) : Option Platform :=
  let k := pyReplaceDel [32] (pyUpper name)
  if k = "HYPERLIQUID".cp then some .hyperliquid
  else if k = "PARADEX".cp then some .paradex
  else if k = "LIGHTER".cp then some .lighter
  else if k = "EXTENDED".cp then some .extended
  else none

/-- `calculate_entry_cost` (scanner.py lines 43-87).  The `leverage` argument
is accepted and unused, exactly as in the source; unknown platforms fall back
to the conservative 0.2% estimate. -/
def calculate_entry_cost (long_platform short_platform : Str) (leverage : Int) : Rat :=
  match platformOfName long_platform, platformOfName short_platform with
  | some lp, some sp =>
    (takerFee lp * 2 + platformSlippage lp) + (takerFee sp * 2 + platformSlippage sp)
  | _, _ => 2 / 1000

/-- `calculate_net_spread` (scanner.py lines 90-122): amortize the round-trip
cost over the hold period, scale by leverage, subtract from the gross
spread. -/
def calculate_net_spread (gross_spread_1h : Rat) (long_platform short_platform : Str)
    (leverage : Int) (hold_hours : Int) : Rat :=
  gross_spread_1h -
    calculate_entry_cost long_platform short_platform leverage / (hold_hours : Rat) *
      (leverage : Rat)

/-- `FundingData` from `src/core/models.py` (volume and timestamps omitted:
they do not influence the scanner's selection logic). -/
structure FundingData where
  pair : Str
  rate_1h : Rat
  platform : Str
  max_leverage : Int
deriving DecidableEq, Inhabited

/-- `Opportunity` from `src/core/models.py` (confidence/volume/timestamp
fields omitted: the scanner never sets them). -/
structure Opportunity where
  pair : Str
  long_platform : Str
  long_rate_1h : Rat
  long_leverage : Int
  short_platform : Str
  short_rate_1h : Rat
  short_leverage : Int
  spread_1h : Rat
  spread_8h : Rat
  min_leverage : Int
  score_1h : Rat
  score_8h : Rat
  net_spread_1h : Option Rat
  entry_cost_pct : Option Rat
deriving DecidableEq, Inhabited

/-- Lexicographic strict order on code-point strings: the order pandas uses
for pivot-table row and column labels. -/
def strLt : Str → Str → Bool
  | [], [] => false
  | [], _ :: _ => true
  | _ :: _, [] => false
  | a :: as, b :: bs => if a < b then true else if b < a then false else strLt as bs

/-- Insert into a sorted duplicate-free label list. -/
def insSortedU (x : Str) : List Str → List Str
  | [] => [x]
  | y :: ys =>
    if x = y then y :: ys
    else if strLt x y then x :: y :: ys
    else y :: insSortedU x ys

/-- Sorted distinct labels, as a pandas pivot index or column set. -/
def sortedUnique (l : List Str) : List Str :=
  l.foldl (fun acc x => insSortedU x acc) []

/-- First data row for a (normalized pair, platform) cell, following
`pivot_table(aggfunc='first')`. -/
def firstRow (rows : List FundingData) (pair plat : Str) : Option FundingData :=
  rows.find? (fun r => decide (r.pair = pair ∧ r.platform = plat))

def rateCell (rows : List FundingData) (pair plat : Str) : Option Rat :=
  (firstRow rows pair plat).map (·.rate_1h)

def levCell (rows : List FundingData) (pair plat : Str) : Option Int :=
  (firstRow rows pair plat).map (·.max_leverage)

/-- The non-null funding rates of one pivot row, in sorted platform-column
order (`pivot.loc[pair].dropna()`). -/
def ratesFor (rows : List FundingData) (plats : List Str) (pair : Str) :
    List (Str × Rat) :=
  plats.filterMap (fun p => (rateCell rows pair p).map (fun r => (p, r)))

def minRateVal : List (Str × Rat) → Rat
  | [] => 0
  | x :: xs => xs.foldl (fun a p => min a p.2) x.2

def maxRateVal : List (Str × Rat) → Rat
  | [] => 0
  | x :: xs => xs.foldl (fun a p => max a p.2) x.2

/-- `Series.idxmin`: label of the first entry attaining the minimum. -/
def idxMinLabel (l : List (Str × Rat)) : Str :=
  ((l.find? (fun p => decide (p.2 = minRateVal l))).map Prod.fst).getD []

/-- `Series.idxmax`: label of the first entry attaining the maximum. -/
def idxMaxLabel (l : List (Str × Rat)) : Str :=
  ((l.find? (fun p => decide (p.2 = maxRateVal l))).map Prod.fst).getD []

/-- Body of the `for pair in pivot.index` loop of
`find_funding_opportunities` (scanner.py lines 181-259); `none` encodes the
loop's `continue`. -/
def mkOpportunity (rows : List FundingData) (plats : List Str)
    (min_spread : Rat) (min_leverage : Int) (include_net_spread : Bool)
    (pair : Str) : Option Opportunity :=
  let rates := ratesFor rows plats pair
  if rates.length < 2 then none
  else
    let min_rate := minRateVal rates
    let max_rate := maxRateVal rates
    let long_platform := idxMinLabel rates
    let short_platform := idxMaxLabel rates
    if long_platform = short_platform then none
    else
      let spread_1h := max_rate - min_rate
      let spread_8h := spread_1h * 8
      if spread_1h < min_spread then none
      else
        let levs : Int × Int :=
          match levCell rows pair long_platform, levCell rows pair short_platform with
          | some a, some b => (a, b)
          | _, _ => (1, 1)
        let min_lev := min levs.1 levs.2
        if min_lev < min_leverage then none
        else
          some {
            pair := pair
            long_platform := long_platform
            long_rate_1h := min_rate
            long_leverage := levs.1
            short_platform := short_platform
            short_rate_1h := max_rate
            short_leverage := levs.2
            spread_1h := spread_1h
            spread_8h := spread_8h
            min_leverage := min_lev
            score_1h := spread_1h * (min_lev : Rat) * 100
            score_8h := spread_8h * (min_lev : Rat) * 100
            net_spread_1h :=
              if include_net_spread then
                some (calculate_net_spread spread_1h long_platform short_platform min_lev 24)
              else none
            entry_cost_pct :=
              if include_net_spread then
                some (calculate_entry_cost long_platform short_platform min_lev)
              else none }

/-- Stable insertion for descending sort by `score_1h`, matching Python's
stable `list.sort(key=..., reverse=True)`. -/
def insertByScoreDesc (o : Opportunity) : List Opportunity → List Opportunity
  | [] => [o]
  | x :: xs =>
    if x.score_1h ≤ o.score_1h then o :: x :: xs else x :: insertByScoreDesc o xs

def sortByScoreDesc : List Opportunity → List Opportunity
  | [] => []
  | x :: xs => insertByScoreDesc x (sortByScoreDesc xs)

/-- `find_funding_opportunities` (scanner.py lines 125-265). -/
def find_funding_opportunities (all_funding_data : List FundingData)
    (min_spread : Rat) (min_leverage : Int) (top_n : Nat)
    (include_net_spread : Bool) : List Opportunity :=
  match all_funding_data with
  | [] => []
  | _ :: _ =>
    let rows := all_funding_data.map
      (fun fd => { fd with pair := standardize_pair_name fd.pair })
    let pairs := sortedUnique (rows.map (·.pair))
    let plats := sortedUnique (rows.map (·.platform))
    let opps := pairs.filterMap
      (mkOpportunity rows plats min_spread min_leverage include_net_spread)
    (sortByScoreDesc opps).take top_n

/- ### Scanner lemmas -/

theorem foldl_min_le_init (xs : List (Str × Rat)) (a : Rat) :
    xs.foldl (fun b p => min b p.2) a ≤ a := by
  induction xs generalizing a with
  | nil => exact le_rfl
  | cons x xs ih => exact (ih (min a x.2)).trans (min_le_left _ _)

theorem le_foldl_max_init (xs : List (Str × Rat)) (a : Rat) :
    a ≤ xs.foldl (fun b p => max b p.2) a := by
  induction xs generalizing a with
  | nil => exact le_rfl
  | cons x xs ih => exact (le_max_left _ _).trans (ih (max a x.2))

theorem minRateVal_le_maxRateVal (l : List (Str × Rat)) (hl : l ≠ []) :
    minRateVal l ≤ maxRateVal l := by
  cases l with
  | nil => exact absurd rfl hl
  | cons x xs => exact (foldl_min_le_init xs x.2).trans (le_foldl_max_init xs x.2)

theorem idxMinLabel_eq_idxMaxLabel (l : List (Str × Rat))
    (h : minRateVal l = maxRateVal l) : idxMinLabel l = idxMaxLabel l := by
  unfold idxMinLabel idxMaxLabel
  rw [h]

theorem mem_insertByScoreDesc {a o : Opportunity} {l : List Opportunity} :
    a ∈ insertByScoreDesc o l ↔ a = o ∨ a ∈ l := by
  induction l with
  | nil => simp [insertByScoreDesc]
  | cons x xs ih =>
    rw [insertByScoreDesc]
    split
    · simp [List.mem_cons]
    · simp only [List.mem_cons, ih]
      tauto

theorem mem_sortByScoreDesc {a : Opportunity} {l : List Opportunity} :
    a ∈ sortByScoreDesc l ↔ a ∈ l := by
  induction l with
  | nil => simp [sortByScoreDesc]
  | cons x xs ih =>
    rw [sortByScoreDesc]
    simp [mem_insertByScoreDesc, ih, List.mem_cons]

/-- Inversion principle for the per-asset loop body: everything the survival
of all the `continue` filters implies about an emitted `Opportunity`. -/
theorem mkOpportunity_spec {rows : List FundingData} {plats : List Str}
    {ms : Rat} {ml : Int} {inc : Bool} {pair : Str} {o : Opportunity}
    (h : mkOpportunity rows plats ms ml inc pair = some o) :
    o.long_platform ≠ o.short_platform ∧
      o.spread_1h = o.short_rate_1h - o.long_rate_1h ∧
      0 < o.spread_1h ∧
      o.min_leverage = min o.long_leverage o.short_leverage ∧
      ms ≤ o.spread_1h ∧
      ml ≤ o.min_leverage ∧
      (inc = true →
        o.net_spread_1h =
          some (calculate_net_spread o.spread_1h o.long_platform o.short_platform
            o.min_leverage 24)) := by
  simp only [mkOpportunity] at h
  split at h
  · exact absurd h (by simp)
  · next hlen =>
    split at h
    · exact absurd h (by simp)
    · next hne =>
      split at h
      · exact absurd h (by simp)
      · next hsp =>
        split at h
        · exact absurd h (by simp)
        · next hml =>
          have hnil : ratesFor rows plats pair ≠ [] := by
            intro hcon
            rw [hcon] at hlen
            simp at hlen
          have hminmax : minRateVal (ratesFor rows plats pair) ≠
              maxRateVal (ratesFor rows plats pair) := by
            intro hcon
            exact hne (idxMinLabel_eq_idxMaxLabel _ hcon)
          injection h with h
          subst h
          refine ⟨hne, rfl, ?_, rfl, not_lt.mp hsp, not_lt.mp hml, fun hinc => ?_⟩
          · exact sub_pos.mpr
              (lt_of_le_of_ne (minRateVal_le_maxRateVal _ hnil) hminmax)
          · simp [hinc]

theorem exists_mkOpportunity_of_mem {data : List FundingData} {ms : Rat}
    {ml : Int} {tn : Nat} {inc : Bool} {o : Opportunity}
    (h : o ∈ find_funding_opportunities data ms ml tn inc) :
    ∃ rows plats pair, mkOpportunity rows plats ms ml inc pair = some o := by
  cases data with
  | nil => simp [find_funding_opportunities] at h
  | cons d ds =>
    simp only [find_funding_opportunities] at h
    have h1 := List.mem_of_mem_take h
    rw [mem_sortByScoreDesc] at h1
    obtain ⟨pair, _, heq⟩ := List.mem_filterMap.mp h1
    exact ⟨_, _, pair, heq⟩

/- ### C3: data-model invariant of emitted opportunities -/

/-- C3: every `Opportunity` produced by `find_funding_opportunities` has
distinct long/short platforms, `spread_1h = short_rate_1h - long_rate_1h`
strictly positive, and `min_leverage = min long_leverage short_leverage`. -/
theorem find_funding_opportunities_invariants
    (data : List FundingData) (min_spread : Rat) (min_leverage : Int)
    (top_n : Nat) (include_net_spread : Bool) (o : Opportunity)
    (h : o ∈ find_funding_opportunities data min_spread min_leverage top_n
      include_net_spread) :
    o.long_platform ≠ o.short_platform ∧
      o.spread_1h = o.short_rate_1h - o.long_rate_1h ∧
      0 < o.spread_1h ∧
      o.min_leverage = min o.long_leverage o.short_leverage := by
  obtain ⟨rows, plats, pair, heq⟩ := exists_mkOpportunity_of_mem h
  obtain ⟨h1, h2, h3, h4, -, -, -⟩ := mkOpportunity_spec heq
  exact ⟨h1, h2, h3, h4⟩

/-- Concrete scan input used by the witnesses: BTC quoted on two venues. -/
def sampleFundingData : List FundingData :=
  [{ pair := "BTC".cp, rate_1h := 1 / 10000, platform := "A".cp, max_leverage := 20 },
   { pair := "BTC".cp, rate_1h := 4 / 10000, platform := "B".cp, max_leverage := 10 }]

/-- The opportunity the sample scan emits. -/
def sampleOpportunity : Opportunity :=
  (find_funding_opportunities sampleFundingData 0 1 25 true).headD default

/-- Witness for `find_funding_opportunities_invariants` at a concrete scan. -/
theorem find_funding_opportunities_invariants_witness :
    sampleOpportunity ∈ find_funding_opportunities sampleFundingData 0 1 25 true ∧
      (sampleOpportunity.long_platform ≠ sampleOpportunity.short_platform ∧
        sampleOpportunity.spread_1h =
          sampleOpportunity.short_rate_1h - sampleOpportunity.long_rate_1h ∧
        0 < sampleOpportunity.spread_1h ∧
        sampleOpportunity.min_leverage =
          min sampleOpportunity.long_leverage sampleOpportunity.short_leverage) :=
  ⟨by decide,
    find_funding_opportunities_invariants sampleFundingData 0 1 25 true
      sampleOpportunity (by decide)⟩

/- ### C7: net spread is strictly below gross spread -/

theorem calculate_entry_cost_pos (lp sp : Str) (lev : Int) :
    0 < calculate_entry_cost lp sp lev := by
  cases hpl : platformOfName lp with
  | none =>
    simp only [calculate_entry_cost, hpl]
    norm_num
  | some p =>
    cases hps : platformOfName sp with
    | none =>
      simp only [calculate_entry_cost, hpl, hps]
      norm_num
    | some q =>
      simp only [calculate_entry_cost, hpl, hps]
      cases p <;> cases q <;> norm_num [takerFee, platformSlippage]

theorem calculate_net_spread_lt_gross (gross : Rat) (lp sp : Str)
    (lev : Int) (hold : Int) (hlev : 1 ≤ lev) (hhold : 0 < hold) :
    calculate_net_spread gross lp sp lev hold < gross := by
  rw [calculate_net_spread]
  have hc := calculate_entry_cost_pos lp sp lev
  have hh : (0 : Rat) < (hold : Rat) := by exact_mod_cast hhold
  have hl : (0 : Rat) < (lev : Rat) := by
    exact_mod_cast lt_of_lt_of_le Int.zero_lt_one hlev
  have hpos : 0 < calculate_entry_cost lp sp lev / (hold : Rat) * (lev : Rat) :=
    mul_pos (div_pos hc hh) hl
  linarith

/-- C7: every `Opportunity` whose `net_spread_1h` the scanner computes has
`net_spread_1h < spread_1h`, whenever the leverage floor is at least 1 (the
source's default); the round-trip cost is strictly positive on every venue
pair, including the unknown-venue fallback. -/
theorem find_funding_opportunities_net_lt_spread
    (data : List FundingData) (min_spread : Rat) (min_leverage : Int)
    (top_n : Nat) (hml : 1 ≤ min_leverage) (o : Opportunity)
    (h : o ∈ find_funding_opportunities data min_spread min_leverage top_n true) :
    ∃ v, o.net_spread_1h = some v ∧ v < o.spread_1h := by
  obtain ⟨rows, plats, pair, heq⟩ := exists_mkOpportunity_of_mem h
  obtain ⟨-, -, -, -, -, hlev, hnet⟩ := mkOpportunity_spec heq
  exact ⟨_, hnet rfl,
    calculate_net_spread_lt_gross o.spread_1h o.long_platform o.short_platform
      o.min_leverage 24 (hml.trans hlev) (by norm_num)⟩

/-- Witness for `find_funding_opportunities_net_lt_spread` at a concrete
scan. -/
theorem find_funding_opportunities_net_lt_spread_witness :
    (1 : Int) ≤ 1 ∧
      sampleOpportunity ∈ find_funding_opportunities sampleFundingData 0 1 25 true ∧
      ∃ v, sampleOpportunity.net_spread_1h = some v ∧ v < sampleOpportunity.spread_1h :=
  ⟨le_rfl, by decide,
    find_funding_opportunities_net_lt_spread sampleFundingData 0 1 25 le_rfl
      sampleOpportunity (by decide)⟩

/- ### C8: the minimum-spread filter -/

/-- C8, amended: the scanner drops an asset precisely when its spread is
strictly below `min_spread` (`if spread_1h < min_spread: continue`), so every
returned `Opportunity` has `min_spread ≤ spread_1h`; a spread exactly equal to
`min_spread` is kept, not dropped. -/
theorem find_funding_opportunities_spread_ge_min_spread
    (data : List FundingData) (min_spread : Rat) (min_leverage : Int)
    (top_n : Nat) (include_net_spread : Bool) (o : Opportunity)
    (h : o ∈ find_funding_opportunities data min_spread min_leverage top_n
      include_net_spread) :
    min_spread ≤ o.spread_1h := by
  obtain ⟨rows, plats, pair, heq⟩ := exists_mkOpportunity_of_mem h
  exact (mkOpportunity_spec heq).2.2.2.2.1

/-- C8, counterexample to the claim as stated: with `min_spread = 3/10000`
and rates `1/10000`, `4/10000`, the computed spread `3/10000` is equal to
`min_spread` and the claim demands the asset be dropped, yet the scanner
returns it (the source filters with strict `<`). -/
theorem find_funding_opportunities_keeps_spread_eq_min :
    ∃ o ∈ find_funding_opportunities sampleFundingData (mkRat 3 10000) 1 25 false,
      o.spread_1h ≤ mkRat 3 10000 := by decide

/-- The opportunity returned by the sample scan with the threshold met with
equality. -/
def sampleOpportunityEq : Opportunity :=
  (find_funding_opportunities sampleFundingData (mkRat 3 10000) 1 25 false).headD default

/-- Witness for `find_funding_opportunities_spread_ge_min_spread` at a
concrete scan. -/
theorem find_funding_opportunities_spread_ge_min_spread_witness :
    sampleOpportunityEq ∈
        find_funding_opportunities sampleFundingData (mkRat 3 10000) 1 25 false ∧
      mkRat 3 10000 ≤ sampleOpportunityEq.spread_1h :=
  ⟨by decide,
    find_funding_opportunities_spread_ge_min_spread sampleFundingData
      (mkRat 3 10000) 1 25 false sampleOpportunityEq (by decide)⟩

/- ### Executor model: `src/trading/executor.py` -/

/-- `OrderSide` from `src/core/models.py`. -/
inductive OrderSide
  | long
  | short
deriving DecidableEq, Inhabited

/-- The fields of `OrderResult` that the executor reads. -/
structure OrderRes where
  success : Bool
  error_message : Str
  filled_price : Rat
deriving DecidableEq, Inhabited

/-- `Position` from `src/core/models.py` (timestamps omitted). -/
structure Position where
  platform : Str
  pair : Str
  side : OrderSide
  size_usd : Rat
  leverage : Int
  entry_price : Rat
  current_price : Option Rat
  unrealized_pnl_usd : Rat
  funding_accumulated_usd : Rat
  liquidation_price : Option Rat
deriving DecidableEq, Inhabited

/-- `DeltaNeutralStrategy` from `src/core/models.py` (creation timestamp
replaced by the hold-time measurement supplied to each monitor tick). -/
structure DeltaNeutralStrategy where
  opportunity : Opportunity
  stake_size_usd : Rat
  target_leverage : Int
  auto_close_on_reversal : Bool
  take_profit_usd : Option Rat
  stop_loss_usd : Option Rat
  max_hold_hours : Option Int
  long_position : Option Position
  short_position : Option Position
deriving DecidableEq, Inhabited

/-- `DeltaNeutralStrategy.get_total_pnl`: sum of unrealized PnL and
accumulated funding over whichever positions are set. -/
def DeltaNeutralStrategy.get_total_pnl (s : DeltaNeutralStrategy) : Rat :=
  (match s.long_position with
   | some p => p.unrealized_pnl_usd + p.funding_accumulated_usd
   | none => 0) +
  (match s.short_position with
   | some p => p.unrealized_pnl_usd + p.funding_accumulated_usd
   | none => 0)

/-- An outbound platform call, recorded in execution order.  Platforms are
identified by their lowercased registry key, the key under which
`TradingExecutor.get_platform` resolves them. -/
inductive PlatformCall
  | place_market_order (platform_key : Str) (pair : Str) (side : OrderSide)
  | close_position (platform_key : Str) (pair : Str)
deriving DecidableEq

/-- The executor's environment: `available` is the platform registry
(`TradingExecutor.platforms`, keyed by lowercased name), `order` each venue's
`place_market_order` response, `close` its `close_position` response. -/
structure ExecEnv where
  available : Str → Bool
  order : Str → OrderSide → OrderRes
  close : Str → OrderRes

/-- The keys `PlatformFactory.register` is called with across the four
platform modules; `TradingExecutor.platforms` can hold no other keys, since
`PlatformFactory.create` raises for unregistered names. -/
def registryPlatformKeys : List Str :=
  ["hyperliquid".cp, "paradex".cp, "lighter".cp, "extended".cp]

def msgShortFailBase (err : Str) : Str :=
  "SHORT order failed: ".cp ++ err ++ ". Rolling back LONG...".cp

def rolledBackSuffix : Str := " (rolled back successfully)".cp

def rollbackFailedInfix : Str := " (ROLLBACK FAILED - CHECK ".cp

/-- Message returned when the compensating close succeeded. -/
def msgRolledBack (err : Str) : Str := msgShortFailBase err ++ rolledBackSuffix

/-- Message returned when the compensating close itself failed. -/
def msgRollbackFailed (err plat : Str) : Str :=
  msgShortFailBase err ++ rollbackFailedInfix ++ plat ++ ")".cp

/-- `TradingExecutor.execute_delta_neutral` (executor.py lines 85-211),
returning the source's `(success, strategy, message)` triple together with
the trace of outbound platform calls. -/
def execute_delta_neutral (env : ExecEnv) (opportunity : Opportunity)
    (stake_size_usd : Rat) (target_leverage : Int)
    (auto_close_on_reversal : Bool := false)
    (take_profit_usd : Option Rat := none)
    (stop_loss_usd : Option Rat := none) :
    (Bool × DeltaNeutralStrategy × Str) × List PlatformCall :=
  let strategy : DeltaNeutralStrategy :=
    { opportunity := opportunity
      stake_size_usd := stake_size_usd
      target_leverage := target_leverage
      auto_close_on_reversal := auto_close_on_reversal
      take_profit_usd := take_profit_usd
      stop_loss_usd := stop_loss_usd
      max_hold_hours := none
      long_position := none
      short_position := none }
  let lkey := pyLower opportunity.long_platform
  let skey := pyLower opportunity.short_platform
  if env.available lkey = false then
    ((false, strategy,
      "Platform ".cp ++ opportunity.long_platform ++ " not available".cp), [])
  else if env.available skey = false then
    ((false, strategy,
      "Platform ".cp ++ opportunity.short_platform ++ " not available".cp), [])
  else
    let long_result := env.order lkey .long
    if long_result.success = false then
      ((false, strategy, "LONG order failed: ".cp ++ long_result.error_message),
        [.place_market_order lkey opportunity.pair .long])
    else
      let short_result := env.order skey .short
      if short_result.success = false then
        let rollback_result := env.close lkey
        if rollback_result.success then
          ((false, strategy, msgRolledBack short_result.error_message),
            [.place_market_order lkey opportunity.pair .long,
             .place_market_order skey opportunity.pair .short,
             .close_position lkey opportunity.pair])
        else
          ((false, strategy,
            msgRollbackFailed short_result.error_message opportunity.long_platform),
            [.place_market_order lkey opportunity.pair .long,
             .place_market_order skey opportunity.pair .short,
             .close_position lkey opportunity.pair])
      else
        ((true,
          { strategy with
            long_position := some
              { platform := opportunity.long_platform
                pair := opportunity.pair
                side := .long
                size_usd := stake_size_usd
                leverage := target_leverage
                entry_price := long_result.filled_price
                current_price := none
                unrealized_pnl_usd := 0
                funding_accumulated_usd := 0
                liquidation_price := none }
            short_position := some
              { platform := opportunity.short_platform
                pair := opportunity.pair
                side := .short
                size_usd := stake_size_usd
                leverage := target_leverage
                entry_price := short_result.filled_price
                current_price := none
                unrealized_pnl_usd := 0
                funding_accumulated_usd := 0
                liquidation_price := none } },
          "Delta-neutral strategy executed successfully!".cp),
          [.place_market_order lkey opportunity.pair .long,
           .place_market_order skey opportunity.pair .short])

/-- `TradingExecutor.close_delta_neutral` (executor.py lines 231-287): the
success flag and message together with the trace of `close_position` calls.
The formatted final-PnL figure of the success message is omitted (float
formatting); all failure messages are modelled in full. -/
def close_delta_neutral (env : ExecEnv) (strategy : DeltaNeutralStrategy) :
    (Bool × Str) × List PlatformCall :=
  match strategy.long_position, strategy.short_position with
  | some lp, some sp =>
    let lkey := pyLower lp.platform
    let skey := pyLower sp.platform
    if env.available lkey = false ∨ env.available skey = false then
      ((false, "One or both platforms not available".cp), [])
    else
      let long_result := env.close lkey
      if long_result.success = false then
        ((false, "Failed to close LONG: ".cp ++ long_result.error_message),
          [.close_position lkey strategy.opportunity.pair])
      else
        let short_result := env.close skey
        if short_result.success = false then
          ((false, "Failed to close SHORT: ".cp ++ short_result.error_message),
            [.close_position lkey strategy.opportunity.pair,
             .close_position skey strategy.opportunity.pair])
        else
          ((true, "Delta-neutral strategy closed. Final PnL: $".cp),
            [.close_position lkey strategy.opportunity.pair,
             .close_position skey strategy.opportunity.pair])
  | _, _ => ((false, "Strategy has no open positions".cp), [])

/- ### C1: rollback on short-leg failure, with distinguishable outcomes -/

/-- The outcome classifier a caller can apply to the returned message:
rollback success is reported with the fixed suffix
`" (rolled back successfully)"`. -/
def rollbackSucceeded (msg : Str) : Bool := decide (rolledBackSuffix <:+ msg)

def isCloseCall : PlatformCall → Bool
  | .close_position _ _ => true
  | .place_market_order _ _ _ => false

theorem suffix_snoc_cancel {α : Type _} {a b : List α} {x : α} :
    (a ++ [x]) <:+ (b ++ [x]) ↔ a <:+ b := by
  constructor
  · intro h
    have h2 := List.reverse_prefix.mpr h
    rw [List.reverse_append, List.reverse_append] at h2
    simp only [List.reverse_singleton, List.singleton_append] at h2
    exact List.reverse_prefix.mp (List.cons_prefix_cons.mp h2).2
  · intro h
    obtain ⟨r, rfl⟩ := h
    exact ⟨r, by rw [List.append_assoc]⟩

theorem getLast?_of_suffix {α : Type _} {a b : List α} (h : a <:+ b)
    (ha : a ≠ []) : b.getLast? = a.getLast? := by
  obtain ⟨r, rfl⟩ := h
  rw [List.getLast?_append]
  obtain ⟨y, hy⟩ := Option.isSome_iff_exists.mp (List.getLast?_isSome.mpr ha)
  rw [hy]
  rfl

/-- Where a space may sit inside the 26-character sentinel prefix
`" (rolled back successfully"`: every split length other than 14 either puts
a space in the tail or does not end the head with a space. -/
theorem sentinel_space_splits :
    ∀ n : Nat, n < 27 → n ≠ 14 →
      (32 ∈ (" (rolled back successfully".cp).drop n ∨
        ((" (rolled back successfully".cp).take n).getLast? ≠ some 32) := by
  decide

/-- The rollback-failure message never carries the rollback-success suffix,
for any error message, provided the platform name echoed into it contains no
space character. -/
theorem not_suffix_rollback_failed (err plat : Str) (hplat : (32 : Nat) ∉ plat) :
    ¬ rolledBackSuffix <:+ msgRollbackFailed err plat := by
  intro hsuf
  have hshape : msgRollbackFailed err plat =
      (msgShortFailBase err ++ rollbackFailedInfix ++ plat) ++ [41] := by
    rw [msgRollbackFailed, show (")".cp : Str) = [41] by decide]
  have hsent : rolledBackSuffix = " (rolled back successfully".cp ++ [41] := by decide
  rw [hshape, hsent, suffix_snoc_cancel] at hsuf
  obtain ⟨r, hr⟩ := hsuf
  rcases List.append_eq_append_iff.mp hr with ⟨a', ha1, ha2⟩ | ⟨c', _, hc2⟩
  · -- the sentinel spans the boundary: its head lies in the message prefix
    have ha'suf : a' <:+ msgShortFailBase err ++ rollbackFailedInfix := ⟨r, ha1.symm⟩
    have hlen26 : a'.length + plat.length = 26 := by
      have h := congrArg List.length ha2
      simp only [List.length_append] at h
      have : (" (rolled back successfully".cp).length = 26 := by decide
      omega
    have htake : a' = (" (rolled back successfully".cp).take a'.length := by
      rw [ha2, List.take_left]
    have hdrop : plat = (" (rolled back successfully".cp).drop a'.length := by
      rw [ha2, List.drop_left]
    rcases eq_or_ne a'.length 14 with h14 | h14
    · -- split length 14: the head would have to be a tail of the
      -- `" (ROLLBACK FAILED - CHECK "` constant, which it is not
      obtain ⟨r2, hr2⟩ := ha'suf
      rcases List.append_eq_append_iff.mp hr2 with ⟨b, _, hb2⟩ | ⟨c, _, hc2'⟩
      · have h1 := congrArg List.length hb2
        simp only [List.length_append] at h1
        have : rollbackFailedInfix.length = 26 := by decide
        omega
      · have hclen : c.length = 12 := by
          have h1 := congrArg List.length hc2'
          simp only [List.length_append] at h1
          have : rollbackFailedInfix.length = 26 := by decide
          omega
        have ha'val : a' = rollbackFailedInfix.drop c.length := by
          rw [hc2', List.drop_left]
        rw [hclen, htake, h14] at ha'val
        exact absurd ha'val (by decide)
    · rcases sentinel_space_splits a'.length (by omega) h14 with hmem | hlast
      · rw [← hdrop] at hmem
        exact hplat hmem
      · have hane : a' ≠ [] := by
          intro hnil
          rw [hnil, List.nil_append] at ha2
          exact hplat (ha2 ▸ (by decide : (32 : Nat) ∈ " (rolled back successfully".cp))
        have hlastD : (msgShortFailBase err ++ rollbackFailedInfix).getLast? = some 32 := by
          rw [List.getLast?_append, show rollbackFailedInfix.getLast? = some 32 by decide]
          rfl
        have hlast' := getLast?_of_suffix ha'suf hane
        rw [hlastD, htake] at hlast'
        exact hlast hlast'.symm
  · -- the whole sentinel would be a suffix of the platform name
    have : (32 : Nat) ∈ plat := by
      rw [hc2]
      exact List.mem_append_right c' (by decide)
    exact hplat this

theorem suffix_rolled_back (err : Str) : rolledBackSuffix <:+ msgRolledBack err :=
  List.suffix_append _ _

/-- C1: when both adapters resolve, the long leg fills and the short leg
fails, the executor issues exactly one compensating `close_position`, against
the long leg's platform, reports failure, and the returned message alone
determines whether the rollback succeeded: `rollbackSucceeded` reads the
outcome back out of it.  The registry hypothesis states that available
platform keys are the four `PlatformFactory.register` keys, which is how
`TradingExecutor._initialize_platforms` builds the table. -/
theorem execute_delta_neutral_rollback_distinguishable
    (env : ExecEnv) (opportunity : Opportunity) (stake_size_usd : Rat)
    (target_leverage : Int)
    (hreg : ∀ k, env.available k = true → k ∈ registryPlatformKeys)
    (hla : env.available (pyLower opportunity.long_platform) = true)
    (hsa : env.available (pyLower opportunity.short_platform) = true)
    (hlong :
      (env.order (pyLower opportunity.long_platform) OrderSide.long).success = true)
    (hshort :
      (env.order (pyLower opportunity.short_platform) OrderSide.short).success = false) :
    (execute_delta_neutral env opportunity stake_size_usd target_leverage).1.1 = false ∧
      (execute_delta_neutral env opportunity stake_size_usd target_leverage).2.filter
          isCloseCall =
        [.close_position (pyLower opportunity.long_platform) opportunity.pair] ∧
      rollbackSucceeded
          (execute_delta_neutral env opportunity stake_size_usd target_leverage).1.2.2 =
        (env.close (pyLower opportunity.long_platform)).success := by
  have hnospace : (32 : Nat) ∉ opportunity.long_platform := by
    intro hmem
    have h32 : (32 : Nat) ∈ pyLower opportunity.long_platform :=
      List.mem_map.mpr ⟨32, hmem, by decide⟩
    have hkey := hreg _ hla
    simp only [registryPlatformKeys, List.mem_cons, List.not_mem_nil, or_false] at hkey
    rcases hkey with h | h | h | h <;> rw [h] at h32 <;> exact absurd h32 (by decide)
  cases hrb : (env.close (pyLower opportunity.long_platform)).success with
  | true =>
    simp only [execute_delta_neutral, hla, hsa, hlong, hshort, hrb]
    simp only [Bool.true_eq_false, if_false, if_true, ite_false, ite_true]
    refine ⟨trivial, by simp [isCloseCall], ?_⟩
    simp only [rollbackSucceeded, decide_eq_true_eq]
    exact suffix_rolled_back _
  | false =>
    simp only [execute_delta_neutral, hla, hsa, hlong, hshort, hrb]
    simp only [Bool.true_eq_false, Bool.false_eq_true, if_false, if_true, ite_false,
      ite_true]
    refine ⟨trivial, by simp [isCloseCall], ?_⟩
    simp only [rollbackSucceeded, decide_eq_false_iff_not]
    exact not_suffix_rollback_failed _ _ hnospace

/-- Concrete opportunity used by executor witnesses. -/
def execWitnessOpportunity : Opportunity :=
  { (default : Opportunity) with
    pair := "BTC".cp
    long_platform := "Hyperliquid".cp
    short_platform := "Paradex".cp }

/-- Environment for the C1 witness: registry-backed availability, long fills,
short is rejected, rollback close succeeds. -/
def execWitnessEnv : ExecEnv :=
  { available := fun k => decide (k ∈ registryPlatformKeys)
    order := fun _ side =>
      match side with
      | .long => { success := true, error_message := [], filled_price := 100 }
      | .short =>
        { success := false, error_message := "insufficient margin".cp, filled_price := 0 }
    close := fun _ => { success := true, error_message := [], filled_price := 0 } }

/-- Witness for `execute_delta_neutral_rollback_distinguishable` at a
concrete environment. -/
theorem execute_delta_neutral_rollback_witness :
    (execute_delta_neutral execWitnessEnv execWitnessOpportunity 1000 2).1.1 = false ∧
      (execute_delta_neutral execWitnessEnv execWitnessOpportunity 1000 2).2.filter
          isCloseCall =
        [.close_position (pyLower execWitnessOpportunity.long_platform)
          execWitnessOpportunity.pair] ∧
      rollbackSucceeded
          (execute_delta_neutral execWitnessEnv execWitnessOpportunity 1000 2).1.2.2 =
        (execWitnessEnv.close (pyLower execWitnessOpportunity.long_platform)).success :=
  execute_delta_neutral_rollback_distinguishable execWitnessEnv execWitnessOpportunity
    1000 2 (fun _ h => of_decide_eq_true h) (by decide) (by decide) (by decide) (by decide)

/- ### C5: the short leg is never placed unless the long leg succeeded -/

/-- C5: if an adapter is missing or the long order fails, no short-side
`place_market_order` ever occurs; conversely a short placement in the trace
forces a successful long placement, and the trace begins with the long. -/
theorem execute_delta_neutral_short_needs_long
    (env : ExecEnv) (opportunity : Opportunity) (stake_size_usd : Rat)
    (target_leverage : Int) :
    ((env.available (pyLower opportunity.long_platform) = false ∨
        env.available (pyLower opportunity.short_platform) = false ∨
        (env.order (pyLower opportunity.long_platform) OrderSide.long).success = false) →
      ∀ k pr, PlatformCall.place_market_order k pr OrderSide.short ∉
        (execute_delta_neutral env opportunity stake_size_usd target_leverage).2) ∧
    (∀ k pr, PlatformCall.place_market_order k pr OrderSide.short ∈
        (execute_delta_neutral env opportunity stake_size_usd target_leverage).2 →
      (env.order (pyLower opportunity.long_platform) OrderSide.long).success = true ∧
        (execute_delta_neutral env opportunity stake_size_usd target_leverage).2.take 2 =
          [.place_market_order (pyLower opportunity.long_platform) opportunity.pair
              OrderSide.long,
           .place_market_order (pyLower opportunity.short_platform) opportunity.pair
              OrderSide.short]) := by
  cases hla : env.available (pyLower opportunity.long_platform) with
  | false => simp [execute_delta_neutral, hla]
  | true =>
    cases hsa : env.available (pyLower opportunity.short_platform) with
    | false => simp [execute_delta_neutral, hla, hsa]
    | true =>
      cases hlong : (env.order (pyLower opportunity.long_platform) OrderSide.long).success
        with
      | false => simp [execute_delta_neutral, hla, hsa, hlong]
      | true =>
        cases hshort :
          (env.order (pyLower opportunity.short_platform) OrderSide.short).success with
        | false =>
          cases hrb : (env.close (pyLower opportunity.long_platform)).success <;>
            simp [execute_delta_neutral, hla, hsa, hlong, hshort, hrb]
        | true => simp [execute_delta_neutral, hla, hsa, hlong, hshort]

/-- Environment for the C5 witness: every order is rejected. -/
def execWitnessEnvLongFail : ExecEnv :=
  { available := fun _ => true
    order := fun _ _ => { success := false, error_message := "rejected".cp, filled_price := 0 }
    close := fun _ => default }

/-- Witness for `execute_delta_neutral_short_needs_long`: with the long order
rejected, the short platform receives no order. -/
theorem execute_delta_neutral_short_needs_long_witness :
    PlatformCall.place_market_order (pyLower execWitnessOpportunity.short_platform)
        execWitnessOpportunity.pair OrderSide.short ∉
      (execute_delta_neutral execWitnessEnvLongFail execWitnessOpportunity 1000 2).2 :=
  (execute_delta_neutral_short_needs_long execWitnessEnvLongFail execWitnessOpportunity
      1000 2).1 (Or.inr (Or.inr (by decide))) _ _

/- ### C2: closing a strategy is sequential, not independent -/

/-- C2, amended: with both positions set and both platforms available,
`close_delta_neutral` closes sequentially.  If the long close fails it
returns failure naming the LONG leg and never attempts the short close; if
the long close succeeds and the short close fails it returns failure naming
the SHORT leg after attempting both; only when both succeed does it report
success.  The two failure messages are always distinguishable (they differ at
a fixed character position), but a failed long close leaves the short leg
untried, contrary to the claim's independent-attempt clause. -/
theorem close_delta_neutral_sequential
    (env : ExecEnv) (strategy : DeltaNeutralStrategy) (lp sp : Position)
    (hl : strategy.long_position = some lp)
    (hs : strategy.short_position = some sp)
    (ha : env.available (pyLower lp.platform) = true)
    (hb : env.available (pyLower sp.platform) = true) :
    ((env.close (pyLower lp.platform)).success = false →
      (close_delta_neutral env strategy).1.1 = false ∧
        (close_delta_neutral env strategy).1.2 =
          "Failed to close LONG: ".cp ++ (env.close (pyLower lp.platform)).error_message ∧
        (close_delta_neutral env strategy).2 =
          [.close_position (pyLower lp.platform) strategy.opportunity.pair]) ∧
    ((env.close (pyLower lp.platform)).success = true →
      (env.close (pyLower sp.platform)).success = false →
      (close_delta_neutral env strategy).1.1 = false ∧
        (close_delta_neutral env strategy).1.2 =
          "Failed to close SHORT: ".cp ++ (env.close (pyLower sp.platform)).error_message ∧
        (close_delta_neutral env strategy).2 =
          [.close_position (pyLower lp.platform) strategy.opportunity.pair,
           .close_position (pyLower sp.platform) strategy.opportunity.pair]) ∧
    ((env.close (pyLower lp.platform)).success = true →
      (env.close (pyLower sp.platform)).success = true →
      (close_delta_neutral env strategy).1.1 = true ∧
        (close_delta_neutral env strategy).2 =
          [.close_position (pyLower lp.platform) strategy.opportunity.pair,
           .close_position (pyLower sp.platform) strategy.opportunity.pair]) ∧
    (∀ e e' : Str,
      "Failed to close LONG: ".cp ++ e ≠ "Failed to close SHORT: ".cp ++ e') := by
  refine ⟨?_, ?_, ?_, ?_⟩
  · intro hcl
    simp [close_delta_neutral, hl, hs, ha, hb, hcl]
  · intro hcl hcs
    simp [close_delta_neutral, hl, hs, ha, hb, hcl, hcs]
  · intro hcl hcs
    simp [close_delta_neutral, hl, hs, ha, hb, hcl, hcs]
  · intro e e' heq
    have h1 : ("Failed to close LONG: ".cp ++ e)[16]? = some 76 := by
      rw [List.getElem?_append_left (by decide)]
      decide
    have h2 : ("Failed to close SHORT: ".cp ++ e')[16]? = some 83 := by
      rw [List.getElem?_append_left (by decide)]
      decide
    rw [heq, h2] at h1
    exact absurd h1 (by decide)

/-- Long-leg position of the close counterexample. -/
def closeWitnessLong : Position :=
  { (default : Position) with platform := "Hyperliquid".cp }

/-- Short-leg position of the close counterexample. -/
def closeWitnessShort : Position :=
  { (default : Position) with platform := "Paradex".cp }

/-- A strategy with both legs set. -/
def closeWitnessStrategy : DeltaNeutralStrategy :=
  { (default : DeltaNeutralStrategy) with
    long_position := some closeWitnessLong
    short_position := some closeWitnessShort }

/-- Environment in which every `close_position` fails. -/
def closeFailEnv : ExecEnv :=
  { available := fun _ => true
    order := fun _ _ => default
    close := fun _ => { success := false, error_message := "timeout".cp, filled_price := 0 } }

/-- C2, counterexample to the claim as stated: both positions are set, both
platforms are available, the long close fails — and the close of the short
leg is never attempted: the trace holds exactly one `close_position`, against
the long platform, none against the short platform. -/
theorem close_delta_neutral_skips_short_counterexample :
    closeWitnessStrategy.long_position.isSome = true ∧
      closeWitnessStrategy.short_position.isSome = true ∧
      closeFailEnv.available (pyLower closeWitnessShort.platform) = true ∧
      (close_delta_neutral closeFailEnv closeWitnessStrategy).1.1 = false ∧
      (close_delta_neutral closeFailEnv closeWitnessStrategy).2 =
        [.close_position ("hyperliquid".cp) closeWitnessStrategy.opportunity.pair] ∧
      PlatformCall.close_position ("paradex".cp) closeWitnessStrategy.opportunity.pair ∉
        (close_delta_neutral closeFailEnv closeWitnessStrategy).2 := by
  decide

/-- Witness for `close_delta_neutral_sequential` at a concrete environment. -/
theorem close_delta_neutral_sequential_witness :
    (close_delta_neutral closeFailEnv closeWitnessStrategy).1.1 = false ∧
      (close_delta_neutral closeFailEnv closeWitnessStrategy).1.2 =
        "Failed to close LONG: ".cp ++
          (closeFailEnv.close (pyLower closeWitnessLong.platform)).error_message ∧
      (close_delta_neutral closeFailEnv closeWitnessStrategy).2 =
        [.close_position (pyLower closeWitnessLong.platform)
          closeWitnessStrategy.opportunity.pair] :=
  (close_delta_neutral_sequential closeFailEnv closeWitnessStrategy closeWitnessLong
      closeWitnessShort rfl rfl (by decide) (by decide)).1 (by decide)

/- ### Monitor model: `src/trading/position_manager.py` -/

/-- `AlertConfig` from `src/core/models.py` (the fields the monitor loop
reads). -/
structure AlertConfig where
  enabled : Bool
  alert_on_profit_threshold : Bool
  profit_threshold_usd : Rat
  alert_on_loss_threshold : Bool
  loss_threshold_usd : Rat
  alert_on_liquidation_risk : Bool
  liquidation_risk_threshold_pct : Rat
  alert_on_funding_reversal : Bool
deriving DecidableEq, Inhabited

inductive AlertType
  | liquidation_risk
  | profit
  | loss
  | reversal
  | auto_close
deriving DecidableEq, Inhabited

/-- The reasons `_check_auto_close_conditions` can return, in source order;
the formatted reason strings are abstracted to tags. -/
inductive CloseReason
  | takeProfit
  | stopLoss
  | reversal
  | maxHold
deriving DecidableEq, Inhabited

/-- Which leg's liquidation proximity set `risk_message` last. -/
inductive RiskTag
  | longLiq
  | shortLiq
deriving DecidableEq, Inhabited

/-- `PositionUpdate` (strategy id and wall-clock timestamp omitted). -/
structure PositionUpdate where
  total_pnl : Rat
  funding_accumulated : Rat
  unrealized_pnl : Rat
  long_position : Position
  short_position : Position
  is_at_risk : Bool
  risk_message : Option RiskTag
deriving DecidableEq, Inhabited

/-- Observable monitor events of one tick: `alertReq t` is the monitor's call
into `_send_alert` with that alert type; `alertCb t` the delivery to the
registered alert callback (suppressed inside `_send_alert` when alerts are
disabled, and absent when no callback is set); `updateCb u` the delivery of a
`PositionUpdate` to the registered update callback; `closeCall` a
position-closing platform call, which the monitor never makes. -/
inductive MonitorEvent
  | alertReq (t : AlertType)
  | alertCb (t : AlertType)
  | updateCb (u : PositionUpdate)
  | closeCall
deriving DecidableEq

/-- Monitor state across ticks: `is_monitoring`, the strategy's position
fields (the loop overwrites them), `last_update`, and the funding history. -/
structure MonitorState where
  is_monitoring : Bool
  long_position : Option Position
  short_position : Option Position
  last_update : Option PositionUpdate
  funding_history : List Rat
deriving DecidableEq, Inhabited

/-- One tick's environment: the result of `_fetch_current_positions`, and the
strategy's age in hours at this tick (`datetime.now() - timestamp_created`,
converted to hours). -/
structure TickEnv where
  fetch : Option Position × Option Position
  time_held_hours : Rat
deriving DecidableEq, Inhabited

/-- `_send_alert` (position_manager.py lines 167-184): the request records
the call, and delivery to the callback happens only when alerts are enabled
and a callback is registered. -/
def sendAlert (cfg : AlertConfig) (cbAlert : Bool) (t : AlertType) : List MonitorEvent :=
  MonitorEvent.alertReq t ::
    (if cfg.enabled && cbAlert then [MonitorEvent.alertCb t] else [])

/-- Python truthiness of an optional float: `None` and `0.0` are falsy. -/
def optRatTruthy : Option Rat → Bool
  | none => false
  | some v => decide (v ≠ 0)

/-- Python truthiness of an optional int: `None` and `0` are falsy. -/
def optIntTruthy : Option Int → Bool
  | none => false
  | some v => decide (v ≠ 0)

/-- `_check_auto_close_conditions` (position_manager.py lines 131-165):
first match wins in the order take-profit, stop-loss, funding-reversal,
max-hold-time.  Each optional threshold is guarded by Python truthiness, so a
threshold set to exactly 0 disables its check. -/
def check_auto_close_conditions (s : DeltaNeutralStrategy)
    (total_pnl current_spread : Rat) (time_held_hours : Rat) : Option CloseReason :=
  if optRatTruthy s.take_profit_usd ∧ s.take_profit_usd.getD 0 ≤ total_pnl then
    some .takeProfit
  else if optRatTruthy s.stop_loss_usd ∧ total_pnl ≤ s.stop_loss_usd.getD 0 then
    some .stopLoss
  else if s.auto_close_on_reversal = true ∧ current_spread < 0 then
    some .reversal
  else if optIntTruthy s.max_hold_hours ∧ ((s.max_hold_hours.getD 0 : Int) : Rat) ≤
      time_held_hours then
    some .maxHold
  else none

/-- Liquidation-proximity distance in percent (lines 228-230, 237-239). -/
def liqDistancePct (p : Position) : Rat :=
  |(p.current_price.getD 0 - p.liquidation_price.getD 0) / p.current_price.getD 0| * 100

/-- One leg's liquidation check fires: the config flag is on, the position's
`liquidation_price` is truthy, and the distance is below the threshold. -/
def liqRisk (cfg : AlertConfig) (p : Position) : Bool :=
  cfg.alert_on_liquidation_risk && optRatTruthy p.liquidation_price &&
    decide (liqDistancePct p < cfg.liquidation_risk_threshold_pct)

/-- Total PnL a successful tick computes, `get_total_pnl` after both
positions are refreshed. -/
def tickTotalPnl (lp sp : Position) : Rat :=
  lp.unrealized_pnl_usd + lp.funding_accumulated_usd +
    (sp.unrealized_pnl_usd + sp.funding_accumulated_usd)

/-- The live funding-direction proxy `short.upnl - long.upnl`. -/
def tickSpread (lp sp : Position) : Rat :=
  sp.unrealized_pnl_usd - lp.unrealized_pnl_usd

/-- One iteration of `_monitor_loop` (position_manager.py lines 194-301).  A
tick on which either leg's position is not found logs, sleeps and `continue`s:
state unchanged, no events.  On a successful tick the state's positions are
refreshed, funding history appended (capped at the last 1000 samples), risk
alerts evaluated independently, auto-close triggers first-match-wins, and one
`PositionUpdate` supplied to the update callback when registered. -/
def monitorTick (cfg : AlertConfig) (strat : DeltaNeutralStrategy)
    (cbUpdate cbAlert : Bool) (st : MonitorState) (env : TickEnv) :
    MonitorState × List MonitorEvent :=
  match env.fetch with
  | (some long_pos, some short_pos) =>
    let total_pnl :=
      DeltaNeutralStrategy.get_total_pnl
        { strat with long_position := some long_pos, short_position := some short_pos }
    let unrealized_pnl := long_pos.unrealized_pnl_usd + short_pos.unrealized_pnl_usd
    let funding_accumulated :=
      long_pos.funding_accumulated_usd + short_pos.funding_accumulated_usd
    let fh0 := st.funding_history ++ [funding_accumulated]
    let fh := if 1000 < fh0.length then fh0.drop (fh0.length - 1000) else fh0
    let current_spread :=
      short_pos.unrealized_pnl_usd - long_pos.unrealized_pnl_usd
    let longRisk := liqRisk cfg long_pos
    let shortRisk := liqRisk cfg short_pos
    let evLiq :=
      (if longRisk then sendAlert cfg cbAlert .liquidation_risk else []) ++
        (if shortRisk then sendAlert cfg cbAlert .liquidation_risk else [])
    let evProfit :=
      if cfg.alert_on_profit_threshold && decide (cfg.profit_threshold_usd ≤ total_pnl)
      then sendAlert cfg cbAlert .profit else []
    let evLoss :=
      if cfg.alert_on_loss_threshold && decide (total_pnl ≤ cfg.loss_threshold_usd)
      then sendAlert cfg cbAlert .loss else []
    let evRev :=
      if cfg.alert_on_funding_reversal && decide (current_spread < 0)
      then sendAlert cfg cbAlert .reversal else []
    let reason :=
      check_auto_close_conditions strat total_pnl current_spread env.time_held_hours
    let evClose := if reason.isSome then sendAlert cfg cbAlert .auto_close else []
    let is_monitoring' := if reason.isSome then false else st.is_monitoring
    let u : PositionUpdate :=
      { total_pnl := total_pnl
        funding_accumulated := funding_accumulated
        unrealized_pnl := unrealized_pnl
        long_position := long_pos
        short_position := short_pos
        is_at_risk := longRisk || shortRisk
        risk_message :=
          if shortRisk then some RiskTag.shortLiq
          else if longRisk then some RiskTag.longLiq
          else none }
    let evUpd := if cbUpdate then [MonitorEvent.updateCb u] else []
    ({ is_monitoring := is_monitoring'
       long_position := some long_pos
       short_position := some short_pos
       last_update := some u
       funding_history := fh },
      evLiq ++ evProfit ++ evLoss ++ evRev ++ evClose ++ evUpd)
  | _ => (st, [])

/-- The monitor loop over a finite schedule of tick environments; the
cooperative `while self.is_monitoring` guard is checked before each tick. -/
def monitorRun (cfg : AlertConfig) (strat : DeltaNeutralStrategy)
    (cbUpdate cbAlert : Bool) : MonitorState → List TickEnv →
    MonitorState × List MonitorEvent
  | st, [] => (st, [])
  | st, e :: es =>
    if st.is_monitoring then
      let r1 := monitorTick cfg strat cbUpdate cbAlert st e
      let r2 := monitorRun cfg strat cbUpdate cbAlert r1.1 es
      (r2.1, r1.2 ++ r2.2)
    else (st, [])

/-- A tick on which one or both positions were not found. -/
def isMissTick (e : TickEnv) : Bool :=
  match e.fetch with
  | (some _, some _) => false
  | _ => true

def isUpdateEvent : MonitorEvent → Bool
  | .updateCb _ => true
  | _ => false

def isAutoCloseReq : MonitorEvent → Bool
  | .alertReq .auto_close => true
  | _ => false

def isAutoCloseCb : MonitorEvent → Bool
  | .alertCb .auto_close => true
  | _ => false

/- ### Monitor lemmas -/

theorem filter_sendAlert_opt (p : MonitorEvent → Bool) (b : Bool)
    (cfg : AlertConfig) (cb : Bool) (t : AlertType)
    (h1 : p (.alertReq t) = false) (h2 : p (.alertCb t) = false) :
    (if b then sendAlert cfg cb t else []).filter p = [] := by
  cases b
  · simp
  · cases hcb : cfg.enabled && cb <;> simp [sendAlert, hcb, h1, h2]

theorem not_mem_sendAlert_opt (x : MonitorEvent) (b : Bool)
    (cfg : AlertConfig) (cb : Bool) (t : AlertType)
    (h1 : x ≠ .alertReq t) (h2 : x ≠ .alertCb t) :
    x ∉ (if b then sendAlert cfg cb t else []) := by
  cases b
  · simp
  · cases hcb : cfg.enabled && cb <;> simp [sendAlert, hcb, h1, h2]

/-- A tick on which a position is missing is a no-op: state unchanged, no
events. -/
theorem monitorTick_miss (cfg : AlertConfig) (strat : DeltaNeutralStrategy)
    (cbUpdate cbAlert : Bool) (st : MonitorState) (env : TickEnv)
    (h : isMissTick env = true) :
    monitorTick cfg strat cbUpdate cbAlert st env = (st, []) := by
  obtain ⟨⟨l, s⟩, th⟩ := env
  cases l with
  | none => rfl
  | some lp =>
    cases s with
    | none => rfl
    | some sp => simp [isMissTick] at h

/-- A successful tick with a registered update callback delivers exactly one
`PositionUpdate`. -/
theorem monitorTick_one_update (cfg : AlertConfig) (strat : DeltaNeutralStrategy)
    (cbAlert : Bool) (st : MonitorState) (env : TickEnv) (lp sp : Position)
    (hfetch : env.fetch = (some lp, some sp)) :
    ((monitorTick cfg strat true cbAlert st env).2.filter isUpdateEvent).length = 1 := by
  obtain ⟨f, th⟩ := env
  simp only at hfetch
  subst hfetch
  show (List.filter isUpdateEvent (_ ++ _ ++ _ ++ _ ++ _ ++ _)).length = 1
  simp only [List.filter_append,
    filter_sendAlert_opt isUpdateEvent _ _ _ _ rfl rfl,
    List.append_assoc, List.nil_append]
  simp [isUpdateEvent]

theorem monitorRun_skip_misses (cfg : AlertConfig) (strat : DeltaNeutralStrategy)
    (cbU cbA : Bool) :
    ∀ (misses : List TickEnv) (st : MonitorState) (rest : List TickEnv),
      st.is_monitoring = true → (∀ e ∈ misses, isMissTick e = true) →
      monitorRun cfg strat cbU cbA st (misses ++ rest) =
        monitorRun cfg strat cbU cbA st rest := by
  intro misses
  induction misses with
  | nil => intro st rest _ _; rfl
  | cons m ms ih =>
    intro st rest hst hm
    rw [List.cons_append, monitorRun, if_pos hst,
      monitorTick_miss cfg strat cbU cbA st m (hm m (List.mem_cons_self m ms))]
    simp only [List.nil_append]
    rw [ih st rest hst (fun e he => hm e (List.mem_cons_of_mem m he))]

/-- The tick's liquidation arithmetic is exception-free in the source:
whenever a leg's truthy `liquidation_price` makes the monitor compute the
liquidation distance, that leg's `current_price` is present and nonzero.
(Otherwise Python raises mid-tick — `None` arithmetic or division by zero —
and the loop's `except` clause abandons the tick; rational division is total
in the model, so theorems about a successful tick's full effects carry this
hypothesis.) -/
def liqArithmeticSafe (cfg : AlertConfig) (p : Position) : Prop :=
  cfg.alert_on_liquidation_risk = true → optRatTruthy p.liquidation_price = true →
    ∃ c, p.current_price = some c ∧ c ≠ 0

/- ### C9: missing positions skip the tick and the loop resumes -/

/-- C9: a tick on which either leg's position is not found leaves the whole
monitor state (including `is_monitoring`) unchanged and emits nothing — in
particular no `PositionUpdate`; after any number of consecutive such misses
the rest of the run proceeds exactly as if the misses had not happened, and a
successful tick with a registered update callback again delivers exactly one
`PositionUpdate`. -/
theorem monitor_miss_ticks_resume (cfg : AlertConfig) (strat : DeltaNeutralStrategy)
    (cbU cbA : Bool) (st : MonitorState) (misses rest : List TickEnv)
    (hst : st.is_monitoring = true)
    (hm : ∀ e ∈ misses, isMissTick e = true) :
    (∀ e ∈ misses, monitorTick cfg strat cbU cbA st e = (st, [])) ∧
      monitorRun cfg strat cbU cbA st (misses ++ rest) =
        monitorRun cfg strat cbU cbA st rest ∧
      (∀ env lp sp, env.fetch = (some lp, some sp) →
        liqArithmeticSafe cfg lp → liqArithmeticSafe cfg sp →
        ((monitorTick cfg strat true cbA st env).2.filter isUpdateEvent).length = 1) :=
  ⟨fun e he => monitorTick_miss cfg strat cbU cbA st e (hm e he),
    monitorRun_skip_misses cfg strat cbU cbA misses st rest hst hm,
    fun env lp sp hf _ _ => monitorTick_one_update cfg strat cbA st env lp sp hf⟩

def monitorPosLong : Position :=
  { (default : Position) with unrealized_pnl_usd := 3, funding_accumulated_usd := 1 }

def monitorPosShort : Position :=
  { (default : Position) with unrealized_pnl_usd := 2, funding_accumulated_usd := 1 }

/-- A tick on which neither position is found. -/
def missTickEnv : TickEnv := { fetch := (none, none), time_held_hours := 0 }

/-- A tick on which both positions are found. -/
def goodTickEnv : TickEnv :=
  { fetch := (some monitorPosLong, some monitorPosShort), time_held_hours := 1 }

/-- Fresh monitoring state. -/
def monitorState0 : MonitorState :=
  { is_monitoring := true
    long_position := none
    short_position := none
    last_update := none
    funding_history := [] }

/-- The source's default `AlertConfig`. -/
def defaultAlertConfig : AlertConfig :=
  { enabled := true
    alert_on_profit_threshold := true
    profit_threshold_usd := 50
    alert_on_loss_threshold := true
    loss_threshold_usd := -20
    alert_on_liquidation_risk := true
    liquidation_risk_threshold_pct := 20
    alert_on_funding_reversal := true }

/-- Witness for `monitor_miss_ticks_resume`: three misses followed by a
successful tick. -/
theorem monitor_miss_ticks_resume_witness :
    monitorTick defaultAlertConfig default true true monitorState0 missTickEnv =
        (monitorState0, []) ∧
      monitorRun defaultAlertConfig default true true monitorState0
          ([missTickEnv, missTickEnv, missTickEnv] ++ [goodTickEnv]) =
        monitorRun defaultAlertConfig default true true monitorState0 [goodTickEnv] ∧
      ((monitorTick defaultAlertConfig default true true monitorState0
          goodTickEnv).2.filter isUpdateEvent).length = 1 :=
  ⟨(monitor_miss_ticks_resume defaultAlertConfig default true true monitorState0
      [missTickEnv, missTickEnv, missTickEnv] [goodTickEnv] (by decide)
      (by decide)).1 missTickEnv (by decide),
    (monitor_miss_ticks_resume defaultAlertConfig default true true monitorState0
      [missTickEnv, missTickEnv, missTickEnv] [goodTickEnv] (by decide)
      (by decide)).2.1,
    (monitor_miss_ticks_resume defaultAlertConfig default true true monitorState0
      [missTickEnv, missTickEnv, missTickEnv] [goodTickEnv] (by decide)
      (by decide)).2.2 goodTickEnv monitorPosLong monitorPosShort (by decide)
      (fun _ hliq => absurd hliq (by decide)) (fun _ hliq => absurd hliq (by decide))⟩

/- ### Shared tick lemmas for the auto-close and alert-gating claims -/

theorem monitorTick_stops_on_reason (cfg : AlertConfig) (strat : DeltaNeutralStrategy)
    (cbU cbA : Bool) (st : MonitorState) (env : TickEnv) (lp sp : Position)
    (r : CloseReason) (hfetch : env.fetch = (some lp, some sp))
    (hfire : check_auto_close_conditions strat (tickTotalPnl lp sp) (tickSpread lp sp)
      env.time_held_hours = some r) :
    (monitorTick cfg strat cbU cbA st env).1.is_monitoring = false := by
  obtain ⟨f, th⟩ := env
  simp only at hfetch
  subst hfetch
  have hreason : check_auto_close_conditions strat
      (DeltaNeutralStrategy.get_total_pnl
        { strat with long_position := some lp, short_position := some sp })
      (sp.unrealized_pnl_usd - lp.unrealized_pnl_usd) th = some r := by
    simpa [DeltaNeutralStrategy.get_total_pnl, tickTotalPnl, tickSpread] using hfire
  simp only [monitorTick, hreason, Option.isSome_some, if_true]

theorem monitorTick_one_autoCloseReq (cfg : AlertConfig) (strat : DeltaNeutralStrategy)
    (cbU cbA : Bool) (st : MonitorState) (env : TickEnv) (lp sp : Position)
    (r : CloseReason) (hfetch : env.fetch = (some lp, some sp))
    (hfire : check_auto_close_conditions strat (tickTotalPnl lp sp) (tickSpread lp sp)
      env.time_held_hours = some r) :
    ((monitorTick cfg strat cbU cbA st env).2.filter isAutoCloseReq).length = 1 := by
  obtain ⟨f, th⟩ := env
  simp only at hfetch
  subst hfetch
  have hreason : check_auto_close_conditions strat
      (DeltaNeutralStrategy.get_total_pnl
        { strat with long_position := some lp, short_position := some sp })
      (sp.unrealized_pnl_usd - lp.unrealized_pnl_usd) th = some r := by
    simpa [DeltaNeutralStrategy.get_total_pnl, tickTotalPnl, tickSpread] using hfire
  show (List.filter isAutoCloseReq (_ ++ _ ++ _ ++ _ ++ _ ++ _)).length = 1
  have eLiq : ∀ (b cb : Bool),
      (if b then sendAlert cfg cb AlertType.liquidation_risk else []).filter
        isAutoCloseReq = [] :=
    fun b cb => filter_sendAlert_opt _ b cfg cb _ rfl rfl
  have eProfit : ∀ (b cb : Bool),
      (if b then sendAlert cfg cb AlertType.profit else []).filter isAutoCloseReq = [] :=
    fun b cb => filter_sendAlert_opt _ b cfg cb _ rfl rfl
  have eLoss : ∀ (b cb : Bool),
      (if b then sendAlert cfg cb AlertType.loss else []).filter isAutoCloseReq = [] :=
    fun b cb => filter_sendAlert_opt _ b cfg cb _ rfl rfl
  have eRev : ∀ (b cb : Bool),
      (if b then sendAlert cfg cb AlertType.reversal else []).filter isAutoCloseReq = [] :=
    fun b cb => filter_sendAlert_opt _ b cfg cb _ rfl rfl
  simp only [List.filter_append, eLiq, eProfit, eLoss, eRev,
    List.append_assoc, List.nil_append, hreason, Option.isSome_some, if_true]
  cases hcb : cfg.enabled && cbA <;> cases cbU <;>
    simp [sendAlert, hcb, isAutoCloseReq]

theorem monitorTick_one_autoCloseCb (cfg : AlertConfig) (strat : DeltaNeutralStrategy)
    (cbU cbA : Bool) (st : MonitorState) (env : TickEnv) (lp sp : Position)
    (r : CloseReason) (hfetch : env.fetch = (some lp, some sp))
    (hfire : check_auto_close_conditions strat (tickTotalPnl lp sp) (tickSpread lp sp)
      env.time_held_hours = some r)
    (hen : cfg.enabled = true) (hcb : cbA = true) :
    ((monitorTick cfg strat cbU cbA st env).2.filter isAutoCloseCb).length = 1 := by
  obtain ⟨f, th⟩ := env
  simp only at hfetch
  subst hfetch
  have hreason : check_auto_close_conditions strat
      (DeltaNeutralStrategy.get_total_pnl
        { strat with long_position := some lp, short_position := some sp })
      (sp.unrealized_pnl_usd - lp.unrealized_pnl_usd) th = some r := by
    simpa [DeltaNeutralStrategy.get_total_pnl, tickTotalPnl, tickSpread] using hfire
  show (List.filter isAutoCloseCb (_ ++ _ ++ _ ++ _ ++ _ ++ _)).length = 1
  have eLiq : ∀ (b cb : Bool),
      (if b then sendAlert cfg cb AlertType.liquidation_risk else []).filter
        isAutoCloseCb = [] :=
    fun b cb => filter_sendAlert_opt _ b cfg cb _ rfl rfl
  have eProfit : ∀ (b cb : Bool),
      (if b then sendAlert cfg cb AlertType.profit else []).filter isAutoCloseCb = [] :=
    fun b cb => filter_sendAlert_opt _ b cfg cb _ rfl rfl
  have eLoss : ∀ (b cb : Bool),
      (if b then sendAlert cfg cb AlertType.loss else []).filter isAutoCloseCb = [] :=
    fun b cb => filter_sendAlert_opt _ b cfg cb _ rfl rfl
  have eRev : ∀ (b cb : Bool),
      (if b then sendAlert cfg cb AlertType.reversal else []).filter isAutoCloseCb = [] :=
    fun b cb => filter_sendAlert_opt _ b cfg cb _ rfl rfl
  simp only [List.filter_append, eLiq, eProfit, eLoss, eRev,
    List.append_assoc, List.nil_append, hreason, Option.isSome_some, if_true]
  cases cbU <;> simp [sendAlert, hen, hcb, isAutoCloseCb]

theorem monitorTick_no_closeCall (cfg : AlertConfig) (strat : DeltaNeutralStrategy)
    (cbU cbA : Bool) (st : MonitorState) (env : TickEnv) :
    MonitorEvent.closeCall ∉ (monitorTick cfg strat cbU cbA st env).2 := by
  obtain ⟨⟨l, s⟩, th⟩ := env
  cases l with
  | none => simp [monitorTick]
  | some lp =>
    cases s with
    | none => simp [monitorTick]
    | some sp =>
      show MonitorEvent.closeCall ∉ _ ++ _ ++ _ ++ _ ++ _ ++ _
      simp only [List.mem_append, not_or]
      refine ⟨⟨⟨⟨⟨⟨?_, ?_⟩, ?_⟩, ?_⟩, ?_⟩, ?_⟩, ?_⟩ <;>
        first
        | exact not_mem_sendAlert_opt _ _ _ _ _ (by simp) (by simp)
        | (cases cbU <;> simp)

theorem check_tp_first (s : DeltaNeutralStrategy) (pnl spread held : Rat)
    (h : optRatTruthy s.take_profit_usd = true ∧ s.take_profit_usd.getD 0 ≤ pnl) :
    check_auto_close_conditions s pnl spread held = some CloseReason.takeProfit := by
  simp [check_auto_close_conditions, h.1, h.2]

theorem check_sl_second (s : DeltaNeutralStrategy) (pnl spread held : Rat)
    (hnt : ¬(optRatTruthy s.take_profit_usd = true ∧ s.take_profit_usd.getD 0 ≤ pnl))
    (h : optRatTruthy s.stop_loss_usd = true ∧ pnl ≤ s.stop_loss_usd.getD 0) :
    check_auto_close_conditions s pnl spread held = some CloseReason.stopLoss := by
  unfold check_auto_close_conditions
  rw [if_neg hnt, if_pos h]

theorem check_rev_third (s : DeltaNeutralStrategy) (pnl spread held : Rat)
    (hnt : ¬(optRatTruthy s.take_profit_usd = true ∧ s.take_profit_usd.getD 0 ≤ pnl))
    (hns : ¬(optRatTruthy s.stop_loss_usd = true ∧ pnl ≤ s.stop_loss_usd.getD 0))
    (h : s.auto_close_on_reversal = true ∧ spread < 0) :
    check_auto_close_conditions s pnl spread held = some CloseReason.reversal := by
  unfold check_auto_close_conditions
  rw [if_neg hnt, if_neg hns, if_pos h]

theorem check_hold_fourth (s : DeltaNeutralStrategy) (pnl spread held : Rat)
    (hnt : ¬(optRatTruthy s.take_profit_usd = true ∧ s.take_profit_usd.getD 0 ≤ pnl))
    (hns : ¬(optRatTruthy s.stop_loss_usd = true ∧ pnl ≤ s.stop_loss_usd.getD 0))
    (hnr : ¬(s.auto_close_on_reversal = true ∧ spread < 0))
    (h : optIntTruthy s.max_hold_hours = true ∧
      ((s.max_hold_hours.getD 0 : Int) : Rat) ≤ held) :
    check_auto_close_conditions s pnl spread held = some CloseReason.maxHold := by
  unfold check_auto_close_conditions
  rw [if_neg hnt, if_neg hns, if_neg hnr, if_pos h]

/- ### C6: auto-close triggers -/

/-- C6, amended: on a tick whose computed PnL/spread/age make
`_check_auto_close_conditions` fire (with the source's Python-truthiness
guards: a threshold set to exactly 0 disables its check), the monitor sets
`is_monitoring` to `false`, requests exactly one `auto_close` alert
(delivered exactly once to the alert callback when alerting is enabled and a
callback is registered), and issues no closing platform call; the four
triggers are evaluated first-match-wins in the order take-profit, stop-loss,
funding-reversal, max-hold-time. -/
theorem monitor_auto_close_trigger (cfg : AlertConfig) (strat : DeltaNeutralStrategy)
    (cbU cbA : Bool) (st : MonitorState) (env : TickEnv) (lp sp : Position)
    (r : CloseReason) (hfetch : env.fetch = (some lp, some sp))
    (hsafeL : liqArithmeticSafe cfg lp) (hsafeS : liqArithmeticSafe cfg sp)
    (hfire : check_auto_close_conditions strat (tickTotalPnl lp sp) (tickSpread lp sp)
      env.time_held_hours = some r) :
    (monitorTick cfg strat cbU cbA st env).1.is_monitoring = false ∧
      ((monitorTick cfg strat cbU cbA st env).2.filter isAutoCloseReq).length = 1 ∧
      (cfg.enabled = true → cbA = true →
        ((monitorTick cfg strat cbU cbA st env).2.filter isAutoCloseCb).length = 1) ∧
      MonitorEvent.closeCall ∉ (monitorTick cfg strat cbU cbA st env).2 ∧
      (∀ pnl spread held : Rat,
        (optRatTruthy strat.take_profit_usd = true ∧
          strat.take_profit_usd.getD 0 ≤ pnl) →
        check_auto_close_conditions strat pnl spread held =
          some CloseReason.takeProfit) ∧
      (∀ pnl spread held : Rat,
        ¬(optRatTruthy strat.take_profit_usd = true ∧
          strat.take_profit_usd.getD 0 ≤ pnl) →
        (optRatTruthy strat.stop_loss_usd = true ∧ pnl ≤ strat.stop_loss_usd.getD 0) →
        check_auto_close_conditions strat pnl spread held = some CloseReason.stopLoss) ∧
      (∀ pnl spread held : Rat,
        ¬(optRatTruthy strat.take_profit_usd = true ∧
          strat.take_profit_usd.getD 0 ≤ pnl) →
        ¬(optRatTruthy strat.stop_loss_usd = true ∧ pnl ≤ strat.stop_loss_usd.getD 0) →
        (strat.auto_close_on_reversal = true ∧ spread < 0) →
        check_auto_close_conditions strat pnl spread held = some CloseReason.reversal) ∧
      (∀ pnl spread held : Rat,
        ¬(optRatTruthy strat.take_profit_usd = true ∧
          strat.take_profit_usd.getD 0 ≤ pnl) →
        ¬(optRatTruthy strat.stop_loss_usd = true ∧ pnl ≤ strat.stop_loss_usd.getD 0) →
        ¬(strat.auto_close_on_reversal = true ∧ spread < 0) →
        (optIntTruthy strat.max_hold_hours = true ∧
          ((strat.max_hold_hours.getD 0 : Int) : Rat) ≤ held) →
        check_auto_close_conditions strat pnl spread held = some CloseReason.maxHold) :=
  ⟨monitorTick_stops_on_reason cfg strat cbU cbA st env lp sp r hfetch hfire,
    monitorTick_one_autoCloseReq cfg strat cbU cbA st env lp sp r hfetch hfire,
    fun hen hcb =>
      monitorTick_one_autoCloseCb cfg strat cbU cbA st env lp sp r hfetch hfire hen hcb,
    monitorTick_no_closeCall cfg strat cbU cbA st env,
    fun pnl spread held h => check_tp_first strat pnl spread held h,
    fun pnl spread held hnt h => check_sl_second strat pnl spread held hnt h,
    fun pnl spread held hnt hns h => check_rev_third strat pnl spread held hnt hns h,
    fun pnl spread held hnt hns hnr h =>
      check_hold_fourth strat pnl spread held hnt hns hnr h⟩

/-- Strategy whose take-profit threshold is exactly zero dollars. -/
def zeroTakeProfitStrategy : DeltaNeutralStrategy :=
  { (default : DeltaNeutralStrategy) with take_profit_usd := some 0 }

/-- C6, counterexample to the claim as stated: with `take_profit_usd = 0.0`
and a tick whose total PnL (7) has reached it, Python truthiness skips the
take-profit check entirely (`if self.strategy.take_profit_usd and ...`), so
the monitor neither stops nor emits any `auto_close` alert. -/
theorem monitor_take_profit_zero_counterexample :
    zeroTakeProfitStrategy.take_profit_usd = some 0 ∧
      zeroTakeProfitStrategy.take_profit_usd.getD 0 ≤
        ((monitorTick defaultAlertConfig zeroTakeProfitStrategy true true monitorState0
          goodTickEnv).1.last_update.getD default).total_pnl ∧
      (monitorTick defaultAlertConfig zeroTakeProfitStrategy true true monitorState0
        goodTickEnv).1.is_monitoring = true ∧
      (monitorTick defaultAlertConfig zeroTakeProfitStrategy true true monitorState0
        goodTickEnv).2.filter isAutoCloseReq = [] ∧
      (monitorTick defaultAlertConfig zeroTakeProfitStrategy true true monitorState0
        goodTickEnv).2.filter isAutoCloseCb = [] := by
  decide

/-- Strategy with a five-dollar take-profit, reached by the sample tick. -/
def takeProfitStrategy : DeltaNeutralStrategy :=
  { (default : DeltaNeutralStrategy) with take_profit_usd := some 5 }

/-- Witness for `monitor_auto_close_trigger` at a concrete tick. -/
theorem monitor_auto_close_trigger_witness :
    (monitorTick defaultAlertConfig takeProfitStrategy true true monitorState0
        goodTickEnv).1.is_monitoring = false ∧
      ((monitorTick defaultAlertConfig takeProfitStrategy true true monitorState0
          goodTickEnv).2.filter isAutoCloseReq).length = 1 ∧
      ((monitorTick defaultAlertConfig takeProfitStrategy true true monitorState0
          goodTickEnv).2.filter isAutoCloseCb).length = 1 ∧
      MonitorEvent.closeCall ∉
        (monitorTick defaultAlertConfig takeProfitStrategy true true monitorState0
          goodTickEnv).2 :=
  have h := monitor_auto_close_trigger defaultAlertConfig takeProfitStrategy true true
    monitorState0 goodTickEnv monitorPosLong monitorPosShort CloseReason.takeProfit
    rfl (fun _ hliq => absurd hliq (by decide)) (fun _ hliq => absurd hliq (by decide))
    (by decide)
  ⟨h.1, h.2.1, h.2.2.1 rfl rfl, h.2.2.2.1⟩

/- ### C10: disabled alerts suppress every callback but nothing else -/

theorem not_mem_alertCb_opt (t' : AlertType) (b : Bool) (cfg : AlertConfig)
    (cb : Bool) (t : AlertType) (hdis : cfg.enabled = false) :
    MonitorEvent.alertCb t' ∉ (if b then sendAlert cfg cb t else []) := by
  cases b <;> simp [sendAlert, hdis]

theorem monitorTick_no_alertCb (cfg : AlertConfig) (strat : DeltaNeutralStrategy)
    (cbU cbA : Bool) (st : MonitorState) (env : TickEnv)
    (hdis : cfg.enabled = false) (t : AlertType) :
    MonitorEvent.alertCb t ∉ (monitorTick cfg strat cbU cbA st env).2 := by
  obtain ⟨⟨l, s⟩, th⟩ := env
  cases l with
  | none => simp [monitorTick]
  | some lp =>
    cases s with
    | none => simp [monitorTick]
    | some sp =>
      show MonitorEvent.alertCb t ∉ _ ++ _ ++ _ ++ _ ++ _ ++ _
      simp only [List.mem_append, not_or]
      refine ⟨⟨⟨⟨⟨⟨?_, ?_⟩, ?_⟩, ?_⟩, ?_⟩, ?_⟩, ?_⟩ <;>
        first
        | exact not_mem_alertCb_opt t _ cfg cbA _ hdis
        | (cases cbU <;> simp)

theorem monitorRun_no_alertCb (cfg : AlertConfig) (strat : DeltaNeutralStrategy)
    (cbU cbA : Bool) (hdis : cfg.enabled = false) :
    ∀ (envs : List TickEnv) (st : MonitorState) (t : AlertType),
      MonitorEvent.alertCb t ∉ (monitorRun cfg strat cbU cbA st envs).2 := by
  intro envs
  induction envs with
  | nil => intro st t; simp [monitorRun]
  | cons e es ih =>
    intro st t
    rw [monitorRun]
    cases hmon : st.is_monitoring with
    | false => simp
    | true =>
      simp only [if_true, List.mem_append, not_or]
      exact ⟨monitorTick_no_alertCb cfg strat cbU cbA st e hdis t, ih _ t⟩

/-- C10: with `alert_config.enabled = false` no alert callback of any type is
ever invoked over any run; auto-close triggers still stop the monitor; and
the `PositionUpdate` callback is still delivered on every successful tick. -/
theorem monitor_alerts_disabled (cfg : AlertConfig) (strat : DeltaNeutralStrategy)
    (cbU cbA : Bool) (st : MonitorState) (envs : List TickEnv)
    (hdis : cfg.enabled = false) :
    (∀ t, MonitorEvent.alertCb t ∉ (monitorRun cfg strat cbU cbA st envs).2) ∧
      (∀ env lp sp r, env.fetch = (some lp, some sp) →
        liqArithmeticSafe cfg lp → liqArithmeticSafe cfg sp →
        check_auto_close_conditions strat (tickTotalPnl lp sp) (tickSpread lp sp)
            env.time_held_hours = some r →
        (monitorTick cfg strat cbU cbA st env).1.is_monitoring = false) ∧
      (∀ env lp sp, env.fetch = (some lp, some sp) →
        liqArithmeticSafe cfg lp → liqArithmeticSafe cfg sp →
        ((monitorTick cfg strat true cbA st env).2.filter isUpdateEvent).length = 1) :=
  ⟨fun t => monitorRun_no_alertCb cfg strat cbU cbA hdis envs st t,
    fun env lp sp r hf _ _ hr =>
      monitorTick_stops_on_reason cfg strat cbU cbA st env lp sp r hf hr,
    fun env lp sp hf _ _ => monitorTick_one_update cfg strat cbA st env lp sp hf⟩

/-- `defaultAlertConfig` with alerting disabled. -/
def disabledAlertConfig : AlertConfig := { defaultAlertConfig with enabled := false }

/-- Witness for `monitor_alerts_disabled` at a concrete run. -/
theorem monitor_alerts_disabled_witness :
    MonitorEvent.alertCb AlertType.auto_close ∉
        (monitorRun disabledAlertConfig takeProfitStrategy true true monitorState0
          [goodTickEnv]).2 ∧
      (monitorTick disabledAlertConfig takeProfitStrategy true true monitorState0
        goodTickEnv).1.is_monitoring = false ∧
      ((monitorTick disabledAlertConfig takeProfitStrategy true true monitorState0
          goodTickEnv).2.filter isUpdateEvent).length = 1 :=
  have h := monitor_alerts_disabled disabledAlertConfig takeProfitStrategy true true
    monitorState0 [goodTickEnv] rfl
  ⟨h.1 AlertType.auto_close,
    h.2.1 goodTickEnv monitorPosLong monitorPosShort CloseReason.takeProfit rfl
      (fun _ hliq => absurd hliq (by decide)) (fun _ hliq => absurd hliq (by decide))
      (by decide),
    h.2.2 goodTickEnv monitorPosLong monitorPosShort rfl
      (fun _ hliq => absurd hliq (by decide)) (fun _ hliq => absurd hliq (by decide))⟩
